import Mathlib

/-!
Verification of the Haui training-rules chatbot.

The repository ships two artifacts: the browser frontend (`frontend/app.js`)
and the documentation of the agentic RAG core (`core/agentic_rag.py`,
`core/agents.py`, `core/tools.py`, `core/query_normalizer.py`,
`core/config.py`), whose sources are not present in the tree.  The frontend
is embedded here directly from `app.js`; the core pipeline is modelled from
its specification (normalization, classification, analysis, planning,
retrieval with merge/dedup/rank, reasoning, validation with bounded retry,
formatting), with every such definition marked `Modelled from the spec:` in
its doc comment.
-/

namespace HauiChatbot

/-! ### Query normalizer (core/query_normalizer.py, modelled from the spec) -/

/-- Simple case folding of one character for the Latin repertoire Vietnamese
uses: Basic Latin A-Z, the Latin-1 uppercase range (À..Þ except ×), the
Latin Extended letters Ă, Đ, Ĩ, Ũ, Ơ, Ư, and the Latin Extended Additional
block (the tone-marked Vietnamese vowels, paired even-uppercase/odd-
lowercase).  Every other character is left unchanged. -/
def lowerChar (c : Char) : Char :=
  let n := c.toNat
  if 0x41 ≤ n ∧ n ≤ 0x5A then Char.ofNat (n + 32)
  else if 0xC0 ≤ n ∧ n ≤ 0xDE ∧ n ≠ 0xD7 then Char.ofNat (n + 32)
  else if n = 0x102 ∨ n = 0x110 ∨ n = 0x128 ∨ n = 0x168 ∨ n = 0x1A0 ∨ n = 0x1AF then
    Char.ofNat (n + 1)
  else if 0x1E00 ≤ n ∧ n ≤ 0x1EFF ∧ n % 2 = 0 then Char.ofNat (n + 1)
  else c

/-- Lowercasing of a whole token, used for the normalizer's case-insensitive
matching (so e.g. "ĐKTC" matches the key "đktc"). -/
def lowerStr (s : String) : String :=
  ⟨s.data.map lowerChar⟩

/-- Modelled from the spec: one entry of the Normalizer's fixed mapping — a
non-empty slang key phrase (head token plus remaining tokens, stored
lowercase) and the canonical phrase it is rewritten to.  Text is represented
throughout by its whitespace-separated token list, so both token-level keys
(`keyRest = []`) and phrase-level keys (README: "sv rớt môn", "ăn điểm") are
expressible. -/
structure SlangRule where
  keyHead : String
  keyRest : List String
  value : List String
deriving DecidableEq, Repr

/-- The full key phrase of a rule, as a token list. -/
def SlangRule.key (r : SlangRule) : List String :=
  r.keyHead :: r.keyRest

/-- Modelled from the spec: `core/query_normalizer.py` is not under `src/`.
The fixed slang/abbreviation mapping (token- or phrase-level, README
documents "sv rớt môn" → "sinh viên điểm f", "đktc" → "đăng ký tín chỉ",
"ăn điểm" → "học lại" among 50+ mappings); the first matching rule in list
order applies, so phrase keys precede their single-token prefixes. -/
def slangMap : List SlangRule :=
  [⟨"sv", ["rớt", "môn"], ["sinh", "viên", "điểm", "f"]⟩,
   ⟨"ăn", ["điểm"], ["học", "lại"]⟩,
   ⟨"đktc", [], ["đăng", "ký", "tín", "chỉ"]⟩,
   ⟨"sv", [], ["sinh", "viên"]⟩,
   ⟨"gv", [], ["giảng", "viên"]⟩,
   ⟨"đh", [], ["đại", "học"]⟩,
   ⟨"tn", [], ["tốt", "nghiệp"]⟩,
   ⟨"ktx", [], ["ký", "túc", "xá"]⟩,
   ⟨"hk", [], ["học", "kỳ"]⟩,
   ⟨"hp", [], ["học", "phần"]⟩,
   ⟨"tc", [], ["tín", "chỉ"]⟩]

/-- Case-insensitive match of a key phrase against the beginning of a token
list: each text token, lowercased, must equal the corresponding key token. -/
def phraseMatch : List String → List String → Bool
  | [], _ => true
  | _ :: _, [] => false
  | k :: ks, t :: ts => lowerStr t == k && phraseMatch ks ts

/-- The first rule of the fixed mapping whose key phrase matches at the
current position, if any. -/
def findRule (ts : List String) : Option SlangRule :=
  slangMap.find? (fun r => phraseMatch r.key ts)

/-- Modelled from the spec: `normalize(text) -> text`, a pure total function
rewriting informal vocabulary (case-insensitive, token- or phrase-level) to
canonical phrases: scan left to right, replace a matched key phrase by its
canonical phrase and continue after it, keep unmatched tokens unchanged. -/
def normalize : List String → List String
  | [] => []
  | t :: ts =>
    match findRule (t :: ts) with
    | some r => r.value ++ normalize (List.drop r.keyRest.length ts)
    | none => t :: normalize ts
termination_by ts => ts.length
decreasing_by
  all_goals simp [List.length_drop]
  omega

/-! ### Core data model (core/agents.py, modelled from the spec) -/

/-- Modelled from the spec: the four intent classes produced by the
Classifier. -/
inductive Classification where
  | greeting
  | chitchat
  | out_of_domain
  | document_query
deriving DecidableEq, Repr

/-- Modelled from the spec: query complexity levels of an Analysis. -/
inductive Complexity where
  | simple
  | medium
  | complex
deriving DecidableEq, Repr

/-- Modelled from the spec: the retrieval strategy tag of a RetrievalPlan. -/
inductive Strategy where
  | single
  | multi_query
  | multi_query_expanded
deriving DecidableEq, Repr

/-- Modelled from the spec: structured output of the Analyzer. -/
structure Analysis where
  intent : String
  complexity : Complexity
  entities : List String
  sub_questions : List String
deriving DecidableEq, Repr

/-- Modelled from the spec: ordered, deduplicated list of query-variant
strings plus a strategy tag. -/
structure RetrievalPlan where
  variants : List String
  strategy : Strategy
deriving DecidableEq, Repr

/-- Modelled from the spec: one retrieved chunk with its dedup key
(`chunkId`), text, source metadata and similarity score. -/
structure EvidenceItem where
  chunkId : Nat
  text : String
  source : String
  score : ℚ
deriving DecidableEq, Repr

/-- Modelled from the spec: accept/retry decision of the Validator. -/
inductive Decision where
  | accept
  | retry
deriving DecidableEq, Repr

/-- Modelled from the spec: output of the Validator. -/
structure ValidationResult where
  completeness : Bool
  accuracy : Bool
  confidence : ℚ
  decision : Decision
deriving DecidableEq, Repr

/-- Modelled from the spec: the answer returned to the API layer. -/
structure FinalResponse where
  answer : String
  confidence : ℚ
  citations : List String
  warning : Bool
deriving DecidableEq, Repr

/-- Modelled from the spec: explicit failure descriptor carried by the
terminal Failed state. -/
structure ErrorDescriptor where
  kind : String
  message : String
deriving DecidableEq, Repr

/-- Modelled from the spec: a terminal pipeline path either yields a
FinalResponse or an explicit failure descriptor. -/
inductive Outcome where
  | success (resp : FinalResponse)
  | failed (err : ErrorDescriptor)
deriving DecidableEq, Repr

/-- Modelled from the spec: the recognized configuration surface
(core/config.py). -/
structure Config where
  enable_multi_query : Bool
  enable_query_expansion : Bool
  enable_chain_of_thought : Bool
  enable_self_reflection : Bool
  max_reasoning_steps : Nat
  top_k : Nat
  similarity_threshold : ℚ
deriving DecidableEq, Repr

/-! ### Retriever (core/tools.py VectorSearchTool, modelled from the spec) -/

/-- Modelled from the spec: the vector similarity search collaborator.  Its
reachability flag and per-variant result (a hit list, or an error for a
failed variant search) stand in for the external ChromaDB store. -/
structure VectorStore where
  reachable : Bool
  search : String → Except Unit (List EvidenceItem)

/-- Modelled from the spec: discard items below the similarity threshold. -/
def keepAboveThreshold (thr : ℚ) (hits : List EvidenceItem) : List EvidenceItem :=
  hits.filter (fun h => thr ≤ h.score)

/-- Modelled from the spec: insert one hit into an accumulator that holds at
most one item per chunk identifier, keeping the higher score on a clash. -/
def upsert : List EvidenceItem → EvidenceItem → List EvidenceItem
  | [], h => [h]
  | a :: rest, h =>
    if a.chunkId = h.chunkId then (if a.score < h.score then h else a) :: rest
    else a :: upsert rest h

/-- Modelled from the spec: deduplicate hits by chunk identifier, keeping
the highest score observed for each identifier. -/
def dedupByChunk (hits : List EvidenceItem) : List EvidenceItem :=
  hits.foldl upsert []

/-- Score-descending comparison on evidence items (the ranking order of the
merged evidence). -/
def scoreGE (a b : EvidenceItem) : Prop :=
  b.score ≤ a.score

instance : DecidableRel scoreGE :=
  fun a b => inferInstanceAs (Decidable (b.score ≤ a.score))

instance : IsTotal EvidenceItem scoreGE :=
  ⟨fun a b => le_total b.score a.score⟩

instance : IsTrans EvidenceItem scoreGE :=
  ⟨fun _ _ _ h1 h2 => le_trans h2 h1⟩

/-- Modelled from the spec: sort merged evidence by score descending. -/
def rankEvidence (hits : List EvidenceItem) : List EvidenceItem :=
  List.insertionSort scoreGE hits

/-- Modelled from the spec: merge step of the Retriever — threshold filter,
dedup by chunk identifier keeping the highest score, sort by score
descending, truncate to `top_k`. -/
def mergeHits (thr : ℚ) (top_k : Nat) (hits : List EvidenceItem) : List EvidenceItem :=
  (rankEvidence (dedupByChunk (keepAboveThreshold thr hits))).take top_k

/-- Modelled from the spec: issue the similarity search for every query
variant; a failed variant is skipped, the surviving variants' hits are
concatenated. -/
def searchVariants (store : VectorStore) : List String → List EvidenceItem
  | [] => []
  | v :: rest =>
    match store.search v with
    | .error _ => searchVariants store rest
    | .ok hits => hits ++ searchVariants store rest

/-- Modelled from the spec:
`retrieve(RetrievalPlan, top_k, similarity_threshold) -> EvidenceSet`.
An unreachable vector store fails with a RetrievalFailure; otherwise the
variants are searched and their surviving results merged. -/
def retrieve (store : VectorStore) (plan : RetrievalPlan) (top_k : Nat)
    (thr : ℚ) : Except ErrorDescriptor (List EvidenceItem) :=
  if store.reachable then
    .ok (mergeHits thr top_k (searchVariants store plan.variants))
  else
    .error ⟨"RetrievalFailure", "vector store unreachable"⟩

/-! ### External collaborators and per-request oracles -/

/-- Modelled from the spec: the external collaborators injected into the
Orchestrator (reasoning service and vector store), given as deterministic
stand-ins.  The per-attempt functions model the attempt-indexed behaviour of
the reasoning service (classification, analysis, reformulation, drafting and
the completeness/accuracy checks of the Validator); `none` results model the
respective service failures. -/
structure Oracles where
  classifyResult : Option Classification
  analysisResult : Option Analysis
  variantsFor : Nat → List String
  expansionsFor : Nat → List String
  store : VectorStore
  draftFor : Nat → Option String
  completenessFor : Nat → Bool
  accuracyFor : Nat → Bool

/-- Modelled from the spec: Classifier fallback — ambiguous or failed
classification defaults to `document_query` (fail open). -/
def classificationOf (O : Oracles) : Classification :=
  O.classifyResult.getD .document_query

/-- Modelled from the spec: Analyzer with its degradation — on failure the
analysis degrades to `simple` complexity, no entities, and the query as its
own single sub-question. -/
def analysisOf (nq : String) (O : Oracles) : Analysis :=
  match O.analysisResult with
  | some a => a
  | none => ⟨"query", .simple, [], [nq]⟩

/-! ### Planner (core/agents.py Retrieval Planner, modelled from the spec) -/

/-- Modelled from the spec: `plan(Analysis) -> RetrievalPlan`.  Simple
queries use the normalized query as single variant; medium queries add
reformulated variants (strategy `multi_query`); complex queries additionally
add expansion terms (strategy `multi_query_expanded`).  Disabling
`enable_multi_query` or `enable_query_expansion` forces the corresponding
degradations; the variant list is ordered and deduplicated; on retry the
variants are regenerated for the new attempt. -/
def planFor (cfg : Config) (O : Oracles) (nq : String) (a : Analysis)
    (attempt : Nat) : RetrievalPlan :=
  match a.complexity with
  | .simple => ⟨[nq], .single⟩
  | .medium =>
    if cfg.enable_multi_query then
      ⟨(nq :: O.variantsFor attempt).dedup, .multi_query⟩
    else ⟨[nq], .single⟩
  | .complex =>
    if cfg.enable_multi_query then
      if cfg.enable_query_expansion then
        ⟨(nq :: (O.variantsFor attempt ++ O.expansionsFor attempt)).dedup,
          .multi_query_expanded⟩
      else ⟨(nq :: O.variantsFor attempt).dedup, .multi_query⟩
    else ⟨[nq], .single⟩

/-- Modelled from the spec: the evidence the Retriever hands to the Reasoner
at one attempt (an in-loop retrieval error degrades to no evidence). -/
def evidenceFor (cfg : Config) (O : Oracles) (nq : String) (a : Analysis)
    (attempt : Nat) : List EvidenceItem :=
  match retrieve O.store (planFor cfg O nq a attempt) cfg.top_k
      cfg.similarity_threshold with
  | .ok ev => ev
  | .error _ => []

/-! ### Reasoner and Validator (modelled from the spec) -/

/-- Modelled from the spec: the Reasoner's draft at one attempt; a reasoning
service that still fails after its one retry degrades to an explicit
"unable to answer" placeholder instead of propagating the failure. -/
def reasonFor (O : Oracles) (attempt : Nat) : String :=
  match O.draftFor attempt with
  | some d => d
  | none => "Xin lỗi, tôi không thể trả lời câu hỏi này."

/-- Clamp a rational into the unit interval. -/
def clamp01 (x : ℚ) : ℚ :=
  max 0 (min 1 x)

/-- Modelled from the spec: retrieval score quality signal entering the
confidence — the best similarity score of the evidence set. -/
def retrievalQuality (ev : List EvidenceItem) : ℚ :=
  clamp01 (ev.foldr (fun h m => max h.score m) 0)

/-- Modelled from the spec: confidence combining the completeness and
accuracy signals with retrieval score quality, in [0,1]. -/
def confidenceScore (comp acc : Bool) (quality : ℚ) : ℚ :=
  clamp01 (((if comp then (1 : ℚ) else 0) + (if acc then (1 : ℚ) else 0) + quality) / 3)

/-- Modelled from the spec: the `similarity_threshold`-derived acceptance
threshold of the Validator. -/
def acceptThreshold (cfg : Config) : ℚ :=
  cfg.similarity_threshold

/-- Modelled from the spec:
`validate(query, Draft, EvidenceSet) -> ValidationResult`.  Accept when the
confidence reaches the acceptance threshold or the attempt counter has
reached `max_reasoning_steps`, otherwise retry; disabling
`enable_self_reflection` forces accept on the first pass. -/
def validate (cfg : Config) (O : Oracles) (attempt : Nat)
    (ev : List EvidenceItem) : ValidationResult :=
  let comp := O.completenessFor attempt
  let acc := O.accuracyFor attempt
  let conf := confidenceScore comp acc (retrievalQuality ev)
  let dec : Decision :=
    if cfg.enable_self_reflection = false then .accept
    else if acceptThreshold cfg ≤ conf ∨ cfg.max_reasoning_steps ≤ attempt then .accept
    else .retry
  ⟨comp, acc, conf, dec⟩

/-! ### Orchestrator retry loop (core/agentic_rag.py, modelled from the spec) -/

/-- Modelled from the spec: the observable outcome of the
Planner→Retriever→Reasoner→Validator loop: the final validation result,
draft and evidence, the ordered trace of attempt-counter values at which the
Validator ran, the final attempt number, and the total number of vector
store search calls issued. -/
structure LoopOut where
  result : ValidationResult
  draft : String
  evidence : List EvidenceItem
  attemptTrace : List Nat
  finalAttempt : Nat
  retrievalCalls : Nat
deriving Repr

/-- Modelled from the spec: the bounded retry cycle
`Planned → Retrieved → Reasoned → Validated → {Planned(retry) | Formatted}`.
The first argument is fuel (provisioned as `max_reasoning_steps` by the
Orchestrator; the decision rule stops at `max_reasoning_steps` before the
fuel can run out), the second the current attempt counter; `retry` routes
back to the Planner with the counter incremented. -/
def retryLoop (cfg : Config) (O : Oracles) (nq : String) (a : Analysis) :
    Nat → Nat → LoopOut
  | 0, attempt =>
    let ev := evidenceFor cfg O nq a attempt
    ⟨validate cfg O attempt ev, reasonFor O attempt, ev, [attempt], attempt,
      (planFor cfg O nq a attempt).variants.length⟩
  | fuel + 1, attempt =>
    let ev := evidenceFor cfg O nq a attempt
    let vr := validate cfg O attempt ev
    let calls := (planFor cfg O nq a attempt).variants.length
    match vr.decision with
    | .accept => ⟨vr, reasonFor O attempt, ev, [attempt], attempt, calls⟩
    | .retry =>
      let rest := retryLoop cfg O nq a fuel (attempt + 1)
      ⟨rest.result, rest.draft, rest.evidence, attempt :: rest.attemptTrace,
        rest.finalAttempt, calls + rest.retrievalCalls⟩

/-! ### Formatter and direct responses (modelled from the spec) -/

/-- Modelled from the spec: citations derived from the evidence source
metadata. -/
def citationsOf (ev : List EvidenceItem) : List String :=
  ev.map EvidenceItem.source

/-- Modelled from the spec:
`format(Draft, EvidenceSet, ValidationResult) -> FinalResponse`.  Attaches
citations, appends the confidence score to the answer text, and carries a
visible warning exactly when the accepted confidence is below the acceptance
threshold. -/
def format (cfg : Config) (draft : String) (ev : List EvidenceItem)
    (vr : ValidationResult) : FinalResponse :=
  { answer := draft ++ ("\n\nĐộ tin cậy: " ++ toString vr.confidence)
    confidence := vr.confidence
    citations := citationsOf ev
    warning := vr.confidence < acceptThreshold cfg }

/-- Modelled from the spec: templated direct responses for the three
non-document classes (the `document_query` branch is never taken by the
Orchestrator). -/
def directResponse : Classification → FinalResponse
  | .greeting =>
    ⟨"Xin chào! Tôi là trợ lý tư vấn quy chế đào tạo HaUI. Bạn cần hỏi gì?", 1, [], false⟩
  | .chitchat =>
    ⟨"Tôi là chatbot hỗ trợ giải đáp quy chế đào tạo của trường.", 1, [], false⟩
  | .out_of_domain =>
    ⟨"Xin lỗi, tôi chỉ hỗ trợ các câu hỏi về quy chế đào tạo.", 1, [], false⟩
  | .document_query =>
    ⟨"Xin lỗi, tôi chưa thể xử lý câu hỏi này.", 0, [], false⟩

/-- Modelled from the spec: RetrievalTotalFailure is surfaced as an explicit
"cannot find information" answer with zero citations and low confidence, not
as a hard error to the caller. -/
def cannotFindResponse : FinalResponse :=
  ⟨"Xin lỗi, tôi không thể truy cập kho tài liệu để tìm thông tin cho câu hỏi này.", 0, [], true⟩

/-! ### Orchestrator (modelled from the spec) -/

/-- Modelled from the spec: the observable result of one pipeline run — the
terminal outcome, the number of vector store search calls issued, the number
of Validator evaluations, and the attempt-counter trace. -/
structure RunResult where
  outcome : Outcome
  retrievalCalls : Nat
  validatorEvals : Nat
  attemptTrace : List Nat
deriving Repr

/-- Modelled from the spec: the full Orchestrator state machine for one
query: Normalizer → Classifier, then either a templated direct answer (the
three non-document classes short-circuit, bypassing
Analyzer/Planner/Retriever) or the document pipeline with its bounded
Validator retry loop ending in the Formatter. -/
def runPipeline (cfg : Config) (O : Oracles) (q : String) : RunResult :=
  let nq := String.intercalate " " (normalize (q.splitOn " "))
  match classificationOf O with
  | .document_query =>
    if O.store.reachable then
      let a := analysisOf nq O
      let out := retryLoop cfg O nq a cfg.max_reasoning_steps 1
      ⟨.success (format cfg out.draft out.evidence out.result),
        out.retrievalCalls, out.attemptTrace.length, out.attemptTrace⟩
    else ⟨.success cannotFindResponse, 0, 0, []⟩
  | .greeting => ⟨.success (directResponse .greeting), 0, 0, []⟩
  | .chitchat => ⟨.success (directResponse .chitchat), 0, 0, []⟩
  | .out_of_domain => ⟨.success (directResponse .out_of_domain), 0, 0, []⟩

/-! ### Frontend embedding (src/frontend/app.js) -/

/-- A DOM node as built by the frontend: an element with tag, class
attribute and children, or a text node (the result of `textContent`). -/
inductive DomNode where
  | elem (tag : String) (className : String) (children : List DomNode)
  | text (data : String)

mutual

/-- Replace every text node's data by the empty string, keeping the element
structure (used to compare the shape of two built DOM trees). -/
def eraseTextData : DomNode → DomNode
  | .elem t c ch => .elem t c (eraseTextList ch)
  | .text _ => .text ""

/-- `eraseTextData` mapped over a child list. -/
def eraseTextList : List DomNode → List DomNode
  | [] => []
  | n :: ns => eraseTextData n :: eraseTextList ns

end

mutual

/-- The text node data of a DOM tree, in document order. -/
def collectTextData : DomNode → List String
  | .elem _ _ ch => collectTextList ch
  | .text d => [d]

/-- `collectTextData` concatenated over a child list. -/
def collectTextList : List DomNode → List String
  | [] => []
  | n :: ns => collectTextData n ++ collectTextList ns

end

/-- Whitespace test backing the model of JavaScript's `String.trim`. -/
def isWsChar (c : Char) : Bool :=
  c = ' ' ∨ c = '\t' ∨ c = '\n' ∨ c = '\r'

/-- Model of JavaScript's `String.prototype.trim`: strip leading and
trailing whitespace. -/
def jsTrim (s : String) : String :=
  ⟨((s.data.dropWhile isWsChar).reverse.dropWhile isWsChar).reverse⟩

/-- One HTTP request issued through `fetch` (method and URL). -/
structure HttpRequest where
  method : String
  url : String
deriving DecidableEq, Repr

/-- `API_BASE_URL` of app.js. -/
def apiBase : String :=
  "http://localhost:8000/api"

/-- The backend as seen by app.js, as a deterministic stand-in: the chat
endpoint's answer (`none` models a failed request), the conversations list,
the new-conversation endpoint (`newOk = false` models a failed `fetch`), and
the per-session delete endpoint result. -/
structure Network where
  chatResult : String → Option String
  conversationsOk : Bool
  conversationsList : List String
  newOk : Bool
  newSessionId : String
  deleteOk : String → Bool

/-- The frontend state of app.js: the script-level variables
(`currentSessionId`, `conversations`, `isLoading`), the relevant DOM state
(message input value, character counter, send button, typing indicator,
messages container children), the persisted `localStorage` session and the
log of HTTP requests issued. -/
structure AppState where
  currentSessionId : Option String
  conversations : List String
  isLoading : Bool
  messageInputValue : String
  charCounterText : String
  sendBtnDisabled : Bool
  typingIndicator : Bool
  messagesContainer : List DomNode
  localStorageSession : Option String
  requestLog : List HttpRequest

/-- app.js `addMessageToUI` (lines 277-296): the element it builds — a
`div.message.message-{role}` containing a `div.message-content` containing a
`div.message-text` whose `textContent` is set to the content string. -/
def buildMessageElement (role content : String) : DomNode :=
  .elem "div" ("message message-" ++ role)
    [.elem "div" "message-content"
      [.elem "div" "message-text" [.text content]]]

/-- app.js `addMessageToUI`: append the built message element to the
messages container (scrolling is not part of this model). -/
def addMessageToUI (role content : String) (s : AppState) : AppState :=
  { s with messagesContainer := s.messagesContainer ++ [buildMessageElement role content] }

/-- app.js `showError` (lines 430-442): the error bubble appended to the
messages container (its `innerHTML` template, as the tree it parses to). -/
def errorNode (message : String) : DomNode :=
  .elem "div" "message message-assistant"
    [.elem "div" "message-content"
      [.elem "div" "message-text" [.text ("⚠️ " ++ message)]]]

/-- app.js `showError`: append the error bubble. -/
def showError (message : String) (s : AppState) : AppState :=
  { s with messagesContainer := s.messagesContainer ++ [errorNode message] }

/-- app.js welcome markup set by `showWelcomeMessage` (lines 324-339),
abbreviated to its heading. -/
def welcomeNode : DomNode :=
  .elem "div" "welcome-message"
    [.elem "h2" "" [.text "Chào mừng đến với Agentic RAG!"]]

/-- app.js `showWelcomeMessage`: replace the container content by the
welcome markup. -/
def showWelcomeMessage (s : AppState) : AppState :=
  { s with messagesContainer := [welcomeNode] }

/-- app.js `loadConversations` (lines 102-112): GET `/conversations`, store
the list and re-render; on failure show an error bubble. -/
def loadConversations (net : Network) (s : AppState) : AppState :=
  let s0 := { s with requestLog := s.requestLog ++ [HttpRequest.mk "GET" (apiBase ++ "/conversations")] }
  if net.conversationsOk then
    { s0 with conversations := net.conversationsList }
  else
    showError "Failed to load conversations" s0

/-- app.js `createNewConversation` (lines 137-159): POST
`/conversations/new`; on success adopt the returned session id (also into
`localStorage`), show the welcome message and reload the conversations
list; a failed request only shows an error bubble. -/
def createNewConversation (net : Network) (s : AppState) : AppState :=
  let s0 := { s with requestLog := s.requestLog ++ [HttpRequest.mk "POST" (apiBase ++ "/conversations/new")] }
  if net.newOk then
    let s1 := { s0 with
      currentSessionId := some net.newSessionId
      localStorageSession := some net.newSessionId }
    loadConversations net (showWelcomeMessage s1)
  else
    showError "Failed to create new conversation" s0

/-- app.js `deleteConversation` (lines 161-184): DELETE
`/conversations/{id}`; a non-ok response throws into the catch and only
shows an error bubble.  On success, when the deleted conversation is the
current one, `createNewConversation` runs first; then the conversations
list is reloaded. -/
def deleteConversation (net : Network) (sessionId : String) (s : AppState) : AppState :=
  let s0 := { s with requestLog := s.requestLog ++ [HttpRequest.mk "DELETE" (apiBase ++ "/conversations/" ++ sessionId)] }
  if net.deleteOk sessionId then
    let s1 :=
      if some sessionId = s0.currentSessionId then createNewConversation net s0
      else s0
    loadConversations net s1
  else
    showError "Failed to delete conversation" s0

/-- app.js `handleSendMessage` (lines 234-275): trim the input; an empty
trimmed message or an in-flight request returns immediately.  Otherwise the
user message is appended, the input and counter reset, the typing indicator
shown and `isLoading`/`sendBtn.disabled` set while POST `/chat` runs; its
answer (or an error bubble) is appended, the conversations list reloaded on
success, and the loading flags reset. -/
def handleSendMessage (net : Network) (s : AppState) : AppState :=
  let message := jsTrim s.messageInputValue
  if message = "" ∨ s.isLoading then s
  else
    let s1 := addMessageToUI "user" message s
    let s2 := { s1 with
      messageInputValue := ""
      charCounterText := "0 / 2000"
      typingIndicator := true
      isLoading := true
      sendBtnDisabled := true
      requestLog := s1.requestLog ++ [HttpRequest.mk "POST" (apiBase ++ "/chat")] }
    let s3 :=
      match net.chatResult message with
      | some answer =>
        loadConversations net
          (addMessageToUI "assistant" answer { s2 with typingIndicator := false })
      | none =>
        showError "Failed to send message. Please try again."
          { s2 with typingIndicator := false }
    { s3 with isLoading := false, sendBtnDisabled := false }

/-! ### Helper predicates and verification fixtures -/

/-- Some item of `acc` has `y`'s chunk identifier and at least `y`'s score
(the accumulator covers `y`). -/
def dominates (acc : List EvidenceItem) (y : EvidenceItem) : Prop :=
  ∃ x ∈ acc, x.chunkId = y.chunkId ∧ y.score ≤ x.score

/-- The retry-loop outcome of a document-class run (normalization, analysis,
then the bounded loop starting at attempt 1 with fuel `max_reasoning_steps`),
as performed by `runPipeline`. -/
def docLoop (cfg : Config) (O : Oracles) (q : String) : LoopOut :=
  let nq := String.intercalate " " (normalize (q.splitOn " "))
  retryLoop cfg O nq (analysisOf nq O) cfg.max_reasoning_steps 1

/-- The formatted FinalResponse of a document-class run. -/
def docResponse (cfg : Config) (O : Oracles) (q : String) : FinalResponse :=
  format cfg (docLoop cfg O q).draft (docLoop cfg O q).evidence (docLoop cfg O q).result

/-- A concrete configuration used to instantiate universally quantified
theorems. -/
def sampleCfg : Config :=
  ⟨true, true, true, true, 3, 5, 1/2⟩

/-- A concrete vector store: the variant "hỏng" fails, every other variant
returns two hits. -/
def sampleStore : VectorStore :=
  ⟨true, fun v =>
    if v = "hỏng" then .error ()
    else .ok [⟨1, "đoạn 1", "Điều 14", 3/4⟩, ⟨2, "đoạn 2", "Điều 15", 3/5⟩]⟩

/-- A concrete retrieval plan containing one failing variant. -/
def samplePlan : RetrievalPlan :=
  ⟨["điều kiện tốt nghiệp", "hỏng"], .multi_query⟩

/-- The evidence set the sample store yields for the sample plan. -/
def sampleEvidence : List EvidenceItem :=
  mergeHits (1/2) 5 (searchVariants sampleStore samplePlan.variants)

/-- Concrete oracles for a document-class run. -/
def sampleOracles : Oracles :=
  { classifyResult := some .document_query
    analysisResult := some ⟨"query", .simple, ["Điều 14"], []⟩
    variantsFor := fun _ => []
    expansionsFor := fun _ => []
    store := sampleStore
    draftFor := fun _ => some "Sinh viên cần tích lũy đủ tín chỉ."
    completenessFor := fun _ => true
    accuracyFor := fun _ => true }

/-- Concrete oracles for a greeting-class run. -/
def greetOracles : Oracles :=
  { sampleOracles with classifyResult := some .greeting }

/-- A backend stand-in whose conversation deletion succeeds but whose
new-conversation endpoint is down. -/
def cexNetNewDown : Network :=
  ⟨fun _ => none, true, [], false, "s2", fun _ => true⟩

/-- A backend stand-in where every endpoint works. -/
def wNetAllOk : Network :=
  ⟨fun _ => some "câu trả lời", true, ["s2"], true, "s2", fun _ => true⟩

/-- A concrete frontend state currently showing conversation "s1". -/
def wStateOnS1 : AppState :=
  ⟨some "s1", ["s1"], false, "", "0 / 2000", false, false, [], some "s1", []⟩

/-- A concrete frontend state with whitespace-only input. -/
def wStateBlankInput : AppState :=
  ⟨some "s1", ["s1"], false, "   ", "3 / 2000", false, false, [], some "s1", []⟩

/-! ## Theorems -/

/-! ### Normalizer lemmas and C5

Idempotence of the phrase-level normalizer rests on three decidable closure
properties of the fixed mapping: every canonical phrase is non-empty, no
canonical-phrase token can start a key phrase, and no key token after the
first can start a canonical phrase.  Together they imply that no key phrase
can match anywhere in normalized output — a window either starts inside a
canonical phrase (first property fails it), crosses from kept tokens into a
canonical phrase (third property fails it), or lies entirely in kept tokens,
where it would already have matched in the first pass. -/

theorem slangMap_values_nonempty : ∀ r ∈ slangMap, r.value ≠ [] := by
  decide

theorem slangMap_values_no_keyHead :
    ∀ r ∈ slangMap, ∀ t ∈ r.value, ∀ r2 ∈ slangMap, lowerStr t ≠ r2.keyHead := by
  decide

theorem slangMap_tails_no_valueHead :
    ∀ r ∈ slangMap, ∀ x ∈ r.keyRest, ∀ r2 ∈ slangMap, ∀ v1 ∈ r2.value.take 1,
      x ≠ lowerStr v1 := by
  decide

theorem normalize_nil : normalize [] = [] := by
  rw [normalize]

theorem normalize_cons_some (t : String) (ts : List String) (r : SlangRule)
    (h : findRule (t :: ts) = some r) :
    normalize (t :: ts) = r.value ++ normalize (List.drop r.keyRest.length ts) := by
  rw [normalize, h]

theorem normalize_cons_none (t : String) (ts : List String)
    (h : findRule (t :: ts) = none) :
    normalize (t :: ts) = t :: normalize ts := by
  rw [normalize, h]

theorem findRule_none_of_head (t : String) (ts : List String)
    (h : ∀ r ∈ slangMap, lowerStr t ≠ r.keyHead) : findRule (t :: ts) = none := by
  rw [findRule, List.find?_eq_none]
  intro r hr hc
  have he : phraseMatch r.key (t :: ts) =
      (lowerStr t == r.keyHead && phraseMatch r.keyRest ts) := rfl
  rw [he] at hc
  simp only [Bool.and_eq_true, beq_iff_eq] at hc
  exact h r hr hc.1

theorem normalize_append_blocked :
    ∀ (w us : List String), (∀ t ∈ w, ∀ r ∈ slangMap, lowerStr t ≠ r.keyHead) →
      normalize (w ++ us) = w ++ normalize us := by
  intro w
  induction w with
  | nil => intro us _; rfl
  | cons t w ih =>
    intro us hw
    have hnone := findRule_none_of_head t (w ++ us)
      (fun r hr => hw t (List.mem_cons_self _ _) r hr)
    rw [List.cons_append, normalize_cons_none _ _ hnone,
      ih us (fun x hx => hw x (List.mem_cons_of_mem _ hx))]
    rfl

theorem phraseMatch_tail_stable :
    ∀ (n : Nat) (ts : List String), ts.length ≤ n →
      ∀ (h : String) (tl : List String),
        (∀ x ∈ h :: tl, ∀ r2 ∈ slangMap, ∀ v1 ∈ r2.value.take 1, x ≠ lowerStr v1) →
        phraseMatch (h :: tl) ts = false →
        phraseMatch (h :: tl) (normalize ts) = false := by
  intro n
  induction n with
  | zero =>
    intro ts hlen h tl _ _
    have hts : ts = [] := List.length_eq_zero.mp (Nat.le_zero.mp hlen)
    subst hts
    rw [normalize_nil]
    rfl
  | succ n ih =>
    intro ts hlen h tl hcond hfail
    match ts with
    | [] =>
      rw [normalize_nil]
      rfl
    | t :: ts2 =>
      cases hfr : findRule (t :: ts2) with
      | some r =>
        rw [normalize_cons_some _ _ _ hfr]
        have hrmem : r ∈ slangMap := List.mem_of_find?_eq_some hfr
        have hvne : r.value ≠ [] := slangMap_values_nonempty r hrmem
        match hv : r.value with
        | [] => exact absurd hv hvne
        | v1 :: vrest =>
          have hne : h ≠ lowerStr v1 :=
            hcond h (List.mem_cons_self _ _) r hrmem v1 (by rw [hv]; simp)
          show (lowerStr v1 == h && phraseMatch tl
            (vrest ++ normalize (List.drop r.keyRest.length ts2))) = false
          simp only [Bool.and_eq_false_iff, beq_eq_false_iff_ne]
          exact Or.inl (fun he => hne he.symm)
      | none =>
        rw [normalize_cons_none _ _ hfr]
        by_cases hb : lowerStr t = h
        · have hfail2 : phraseMatch tl ts2 = false := by
            have he : phraseMatch (h :: tl) (t :: ts2) =
                ((lowerStr t == h) && phraseMatch tl ts2) := rfl
            rw [he] at hfail
            simp only [hb, beq_self_eq_true, Bool.true_and] at hfail
            exact hfail
          match tl with
          | [] => exact absurd hfail2 (by simp [phraseMatch])
          | h2 :: tl2 =>
            have hlen2 : ts2.length ≤ n := by
              simp only [List.length_cons] at hlen
              omega
            have hrec := ih ts2 hlen2 h2 tl2
              (fun x hx => hcond x (List.mem_cons_of_mem _ hx)) hfail2
            show ((lowerStr t == h) && phraseMatch (h2 :: tl2) (normalize ts2)) = false
            simp [hrec]
        · show ((lowerStr t == h) && phraseMatch tl (normalize ts2)) = false
          simp only [Bool.and_eq_false_iff, beq_eq_false_iff_ne]
          exact Or.inl hb

theorem normalize_idem_aux :
    ∀ (n : Nat) (ts : List String), ts.length ≤ n →
      normalize (normalize ts) = normalize ts := by
  intro n
  induction n with
  | zero =>
    intro ts hlen
    have hts : ts = [] := List.length_eq_zero.mp (Nat.le_zero.mp hlen)
    subst hts
    rw [normalize_nil, normalize_nil]
  | succ n ih =>
    intro ts hlen
    match ts with
    | [] => rw [normalize_nil, normalize_nil]
    | t :: ts2 =>
      have hlen2 : ts2.length ≤ n := by
        simp only [List.length_cons] at hlen
        omega
      cases hfr : findRule (t :: ts2) with
      | some r =>
        rw [normalize_cons_some _ _ _ hfr]
        have hrmem : r ∈ slangMap := List.mem_of_find?_eq_some hfr
        have hvblocked : ∀ x ∈ r.value, ∀ r2 ∈ slangMap, lowerStr x ≠ r2.keyHead :=
          fun x hx => slangMap_values_no_keyHead r hrmem x hx
        rw [normalize_append_blocked r.value _ hvblocked]
        have hdlen : (List.drop r.keyRest.length ts2).length ≤ n := by
          have := List.length_drop r.keyRest.length ts2
          omega
        rw [ih _ hdlen]
      | none =>
        rw [normalize_cons_none _ _ hfr]
        have hnone2 : findRule (t :: normalize ts2) = none := by
          rw [findRule, List.find?_eq_none]
          intro r hr hc
          have hfr2 : phraseMatch r.key (t :: ts2) = false := by
            have := (List.find?_eq_none.mp hfr) r hr
            simpa using this
          have he : phraseMatch r.key (t :: normalize ts2) =
              ((lowerStr t == r.keyHead) && phraseMatch r.keyRest (normalize ts2)) := rfl
          rw [he] at hc
          simp only [Bool.and_eq_true, beq_iff_eq] at hc
          have he2 : phraseMatch r.key (t :: ts2) =
              ((lowerStr t == r.keyHead) && phraseMatch r.keyRest ts2) := rfl
          rw [he2] at hfr2
          simp only [hc.1, beq_self_eq_true, Bool.true_and] at hfr2
          match htl : r.keyRest with
          | [] =>
            rw [htl] at hfr2
            exact absurd hfr2 (by simp [phraseMatch])
          | h2 :: tl2 =>
            have hcond : ∀ x ∈ h2 :: tl2, ∀ r2 ∈ slangMap, ∀ v1 ∈ r2.value.take 1,
                x ≠ lowerStr v1 :=
              fun x hx => slangMap_tails_no_valueHead r hr x (htl ▸ hx)
            have hstable := phraseMatch_tail_stable ts2.length ts2 (le_refl _) h2 tl2
              hcond (htl ▸ hfr2)
            have hc2 := hc.2
            rw [htl, hstable] at hc2
            cases hc2
        rw [normalize_cons_none _ _ hnone2, ih ts2 hlen2]

/-- C5: `normalize` is a pure total function (a Lean function by
construction) over the fixed case-insensitive, token- or phrase-level slang
mapping, and idempotent: normalizing already-normalized text changes
nothing. -/
theorem normalize_idempotent :
    ∀ ts : List String, normalize (normalize ts) = normalize ts :=
  fun ts => normalize_idem_aux ts.length ts (le_refl _)

/-! ### Retriever merge lemmas -/

theorem upsert_map_chunkId (h : EvidenceItem) :
    ∀ acc : List EvidenceItem,
      (upsert acc h).map EvidenceItem.chunkId =
        if h.chunkId ∈ acc.map EvidenceItem.chunkId then acc.map EvidenceItem.chunkId
        else acc.map EvidenceItem.chunkId ++ [h.chunkId] := by
  intro acc
  induction acc with
  | nil => simp [upsert]
  | cons a rest ih =>
    by_cases hc : a.chunkId = h.chunkId
    · have hsel : (if a.score < h.score then h else a).chunkId = a.chunkId := by
        split
        · exact hc.symm
        · rfl
      have hmem : h.chunkId ∈ a.chunkId :: rest.map EvidenceItem.chunkId :=
        List.mem_cons.mpr (Or.inl hc.symm)
      simp only [upsert, List.map_cons]
      rw [if_pos hc, List.map_cons, hsel, if_pos hmem]
    · have hne : ¬ h.chunkId = a.chunkId := fun he => hc he.symm
      simp only [upsert, if_neg hc, List.map_cons, List.mem_cons, hne, false_or, ih]
      by_cases hmem : h.chunkId ∈ rest.map EvidenceItem.chunkId
      · simp [hmem]
      · simp [hmem]

theorem upsert_nodup_keys (acc : List EvidenceItem) (h : EvidenceItem)
    (hn : (acc.map EvidenceItem.chunkId).Nodup) :
    ((upsert acc h).map EvidenceItem.chunkId).Nodup := by
  rw [upsert_map_chunkId]
  split
  · exact hn
  · next hmem => simp [List.nodup_append, hn, hmem]

theorem foldl_upsert_nodup_keys :
    ∀ (l acc : List EvidenceItem), (acc.map EvidenceItem.chunkId).Nodup →
      ((l.foldl upsert acc).map EvidenceItem.chunkId).Nodup
  | [], _, hn => hn
  | h :: t, acc, hn => foldl_upsert_nodup_keys t (upsert acc h) (upsert_nodup_keys acc h hn)

theorem dedupByChunk_nodup_keys (hits : List EvidenceItem) :
    ((dedupByChunk hits).map EvidenceItem.chunkId).Nodup :=
  foldl_upsert_nodup_keys hits [] (by simp)

theorem mem_upsert (x h : EvidenceItem) :
    ∀ acc : List EvidenceItem, x ∈ upsert acc h → x ∈ acc ∨ x = h := by
  intro acc
  induction acc with
  | nil => intro hx; simpa [upsert] using hx
  | cons a rest ih =>
    intro hx
    by_cases hc : a.chunkId = h.chunkId
    · rw [upsert, if_pos hc] at hx
      rcases List.mem_cons.mp hx with hx | hx
      · revert hx
        split
        · intro hx; exact Or.inr hx
        · intro hx; exact Or.inl (hx ▸ List.mem_cons_self _ _)
      · exact Or.inl (List.mem_cons_of_mem _ hx)
    · rw [upsert, if_neg hc] at hx
      rcases List.mem_cons.mp hx with hx | hx
      · exact Or.inl (hx ▸ List.mem_cons_self _ _)
      · rcases ih hx with hx | hx
        · exact Or.inl (List.mem_cons_of_mem _ hx)
        · exact Or.inr hx

theorem mem_foldl_upsert :
    ∀ (l acc : List EvidenceItem) (x : EvidenceItem),
      x ∈ l.foldl upsert acc → x ∈ acc ∨ x ∈ l
  | [], _, _, hx => Or.inl hx
  | h :: t, acc, x, hx => by
    rcases mem_foldl_upsert t (upsert acc h) x hx with hx | hx
    · rcases mem_upsert x h acc hx with hx | hx
      · exact Or.inl hx
      · exact Or.inr (hx ▸ List.mem_cons_self _ _)
    · exact Or.inr (List.mem_cons_of_mem _ hx)

theorem mem_dedupByChunk (hits : List EvidenceItem) (x : EvidenceItem)
    (hx : x ∈ dedupByChunk hits) : x ∈ hits := by
  rcases mem_foldl_upsert hits [] x hx with hx | hx
  · simp at hx
  · exact hx

theorem upsert_dominates_self (h : EvidenceItem) :
    ∀ acc : List EvidenceItem, dominates (upsert acc h) h := by
  intro acc
  induction acc with
  | nil => exact ⟨h, by simp [upsert], rfl, le_refl _⟩
  | cons a rest ih =>
    by_cases hc : a.chunkId = h.chunkId
    · rw [upsert, if_pos hc]
      by_cases hs : a.score < h.score
      · exact ⟨h, by simp [hs], rfl, le_refl _⟩
      · exact ⟨a, by simp [hs], hc, le_of_not_lt hs⟩
    · rcases ih with ⟨x, hx, hk, hsc⟩
      exact ⟨x, by rw [upsert, if_neg hc]; exact List.mem_cons_of_mem _ hx, hk, hsc⟩

theorem upsert_dominates_mono (h y : EvidenceItem) :
    ∀ acc : List EvidenceItem, dominates acc y → dominates (upsert acc h) y := by
  intro acc
  induction acc with
  | nil => rintro ⟨x, hx, _⟩; simp at hx
  | cons a rest ih =>
    rintro ⟨x, hx, hk, hsc⟩
    by_cases hc : a.chunkId = h.chunkId
    · rw [upsert, if_pos hc]
      rcases List.mem_cons.mp hx with hx | hx
      · subst hx
        by_cases hs : x.score < h.score
        · exact ⟨h, by simp [hs], hc ▸ hk, le_trans hsc (le_of_lt hs)⟩
        · exact ⟨x, by simp [hs], hk, hsc⟩
      · exact ⟨x, List.mem_cons_of_mem _ hx, hk, hsc⟩
    · rw [upsert, if_neg hc]
      rcases List.mem_cons.mp hx with hx | hx
      · exact ⟨a, hx ▸ List.mem_cons_self _ _, hx ▸ hk, hx ▸ hsc⟩
      · rcases ih ⟨x, hx, hk, hsc⟩ with ⟨z, hz, hzk, hzs⟩
        exact ⟨z, List.mem_cons_of_mem _ hz, hzk, hzs⟩

theorem foldl_upsert_dominates :
    ∀ (l acc : List EvidenceItem) (y : EvidenceItem),
      y ∈ l ∨ dominates acc y → dominates (l.foldl upsert acc) y
  | [], _, y, hy => by
    rcases hy with hy | hy
    · simp at hy
    · exact hy
  | h :: t, acc, y, hy => by
    rcases hy with hy | hy
    · rcases List.mem_cons.mp hy with hy | hy
      · exact foldl_upsert_dominates t (upsert acc h) y
          (Or.inr (hy ▸ upsert_dominates_self h acc))
      · exact foldl_upsert_dominates t (upsert acc h) y (Or.inl hy)
    · exact foldl_upsert_dominates t (upsert acc h) y
        (Or.inr (upsert_dominates_mono h y acc hy))

theorem dedupByChunk_dominates (hits : List EvidenceItem) (y : EvidenceItem)
    (hy : y ∈ hits) : dominates (dedupByChunk hits) y :=
  foldl_upsert_dominates hits [] y (Or.inl hy)

theorem dedupByChunk_max (hits : List EvidenceItem) (x y : EvidenceItem)
    (hx : x ∈ dedupByChunk hits) (hy : y ∈ hits) (hk : y.chunkId = x.chunkId) :
    y.score ≤ x.score := by
  obtain ⟨z, hz, hzk, hzs⟩ := dedupByChunk_dominates hits y hy
  have hzx : z = x :=
    List.inj_on_of_nodup_map (dedupByChunk_nodup_keys hits) hz hx (by rw [hzk, hk])
  exact hzx ▸ hzs

theorem rankEvidence_perm (hits : List EvidenceItem) :
    (rankEvidence hits).Perm hits :=
  List.perm_insertionSort scoreGE hits

theorem mergeHits_nodup_keys (thr : ℚ) (top_k : Nat) (hits : List EvidenceItem) :
    ((mergeHits thr top_k hits).map EvidenceItem.chunkId).Nodup := by
  have h1 := dedupByChunk_nodup_keys (keepAboveThreshold thr hits)
  have h2 : ((rankEvidence (dedupByChunk (keepAboveThreshold thr hits))).map
      EvidenceItem.chunkId).Nodup :=
    (((rankEvidence_perm _).map EvidenceItem.chunkId).nodup_iff).mpr h1
  exact h2.sublist ((List.take_sublist _ _).map EvidenceItem.chunkId)

theorem mergeHits_sorted (thr : ℚ) (top_k : Nat) (hits : List EvidenceItem) :
    (mergeHits thr top_k hits).Sorted scoreGE :=
  List.Pairwise.sublist (List.take_sublist _ _) (List.sorted_insertionSort scoreGE _)

theorem mergeHits_length (thr : ℚ) (top_k : Nat) (hits : List EvidenceItem) :
    (mergeHits thr top_k hits).length ≤ top_k :=
  List.length_take_le _ _

theorem mem_mergeHits (thr : ℚ) (top_k : Nat) (hits : List EvidenceItem)
    (x : EvidenceItem) (hx : x ∈ mergeHits thr top_k hits) :
    x ∈ hits ∧ thr ≤ x.score := by
  have h1 : x ∈ rankEvidence (dedupByChunk (keepAboveThreshold thr hits)) :=
    (List.take_sublist _ _).mem hx
  have h2 : x ∈ dedupByChunk (keepAboveThreshold thr hits) :=
    (rankEvidence_perm _).mem_iff.mp h1
  have h3 : x ∈ keepAboveThreshold thr hits := mem_dedupByChunk _ x h2
  have h4 := List.mem_filter.mp h3
  exact ⟨h4.1, by simpa using h4.2⟩

theorem mergeHits_keeps_max (thr : ℚ) (top_k : Nat) (hits : List EvidenceItem)
    (x y : EvidenceItem) (hx : x ∈ mergeHits thr top_k hits) (hy : y ∈ hits)
    (hthr : thr ≤ y.score) (hk : y.chunkId = x.chunkId) : y.score ≤ x.score := by
  have h1 : x ∈ rankEvidence (dedupByChunk (keepAboveThreshold thr hits)) :=
    (List.take_sublist _ _).mem hx
  have h2 : x ∈ dedupByChunk (keepAboveThreshold thr hits) :=
    (rankEvidence_perm _).mem_iff.mp h1
  exact dedupByChunk_max _ x y h2 (List.mem_filter.mpr ⟨hy, by simpa using hthr⟩) hk

/-- C3: an EvidenceSet returned by `retrieve` has pairwise distinct chunk
identifiers, is sorted by similarity score descending, has length at most
`top_k`, consists of observed above-threshold hits, and each member carries
the highest score observed for its chunk identifier across all variants. -/
theorem retrieve_evidence_invariants (store : VectorStore) (plan : RetrievalPlan)
    (top_k : Nat) (thr : ℚ) (es : List EvidenceItem)
    (h : retrieve store plan top_k thr = .ok es) :
    ((es.map EvidenceItem.chunkId).Nodup) ∧
    es.Sorted scoreGE ∧
    es.length ≤ top_k ∧
    (∀ e ∈ es, e ∈ searchVariants store plan.variants ∧ thr ≤ e.score) ∧
    (∀ e ∈ es, ∀ y ∈ searchVariants store plan.variants,
      thr ≤ y.score → y.chunkId = e.chunkId → y.score ≤ e.score) := by
  unfold retrieve at h
  split at h
  · cases h
    exact ⟨mergeHits_nodup_keys _ _ _, mergeHits_sorted _ _ _, mergeHits_length _ _ _,
      fun e he => mem_mergeHits _ _ _ e he,
      fun e he y hy hthr hk => mergeHits_keeps_max _ _ _ e y he hy hthr hk⟩
  · cases h

/-- Witness for C3 at a concrete store and plan. -/
theorem retrieve_evidence_invariants_witness :
    retrieve sampleStore samplePlan 5 (1/2) = .ok sampleEvidence ∧
    ((sampleEvidence.map EvidenceItem.chunkId).Nodup ∧
      sampleEvidence.Sorted scoreGE ∧ sampleEvidence.length ≤ 5) := by
  have h : retrieve sampleStore samplePlan 5 (1/2) = .ok sampleEvidence := rfl
  have hinv := retrieve_evidence_invariants sampleStore samplePlan 5 (1/2) sampleEvidence h
  exact ⟨h, hinv.1, hinv.2.1, hinv.2.2.1⟩

/-- C7: a failed variant search does not abort retrieval — the surviving
variants' results are still merged exactly as if the failed variant were
absent, and only an unreachable vector store makes the call fail, with a
RetrievalFailure. -/
theorem retrieve_partial_failure (store : VectorStore) (v : String)
    (rest : List String) (st : Strategy) (top_k : Nat) (thr : ℚ) (e : Unit)
    (hfail : store.search v = .error e) :
    retrieve store ⟨v :: rest, st⟩ top_k thr = retrieve store ⟨rest, st⟩ top_k thr ∧
    (store.reachable = true →
      retrieve store ⟨v :: rest, st⟩ top_k thr =
        .ok (mergeHits thr top_k (searchVariants store rest))) ∧
    (store.reachable = false →
      retrieve store ⟨v :: rest, st⟩ top_k thr =
        .error ⟨"RetrievalFailure", "vector store unreachable"⟩) := by
  have hskip : searchVariants store (v :: rest) = searchVariants store rest := by
    rw [searchVariants, hfail]
  refine ⟨?_, ?_, ?_⟩
  · unfold retrieve
    rw [hskip]
  · intro hr
    unfold retrieve
    rw [hr, hskip]
    rfl
  · intro hr
    unfold retrieve
    rw [hr]
    rfl

/-- Witness for C7: the sample store's variant "hỏng" fails, and retrieval
over both variants equals retrieval over the surviving variant alone. -/
theorem retrieve_partial_failure_witness :
    sampleStore.search "hỏng" = .error () ∧
    retrieve sampleStore ⟨["hỏng", "điều kiện tốt nghiệp"], .multi_query⟩ 5 (1/2) =
      retrieve sampleStore ⟨["điều kiện tốt nghiệp"], .multi_query⟩ 5 (1/2) :=
  ⟨rfl, (retrieve_partial_failure sampleStore "hỏng" ["điều kiện tốt nghiệp"]
    .multi_query 5 (1/2) () rfl).1⟩

/-! ### Validator and retry-loop lemmas -/

theorem clamp01_nonneg (x : ℚ) : 0 ≤ clamp01 x :=
  le_max_left 0 _

theorem clamp01_le_one (x : ℚ) : clamp01 x ≤ 1 :=
  max_le zero_le_one (min_le_left 1 x)

theorem validate_confidence_mem_unit (cfg : Config) (O : Oracles) (attempt : Nat)
    (ev : List EvidenceItem) :
    0 ≤ (validate cfg O attempt ev).confidence ∧
      (validate cfg O attempt ev).confidence ≤ 1 := by
  unfold validate confidenceScore
  exact ⟨clamp01_nonneg _, clamp01_le_one _⟩

theorem validate_retry_inv (cfg : Config) (O : Oracles) (attempt : Nat)
    (ev : List EvidenceItem)
    (h : (validate cfg O attempt ev).decision = .retry) :
    cfg.enable_self_reflection = true ∧ attempt < cfg.max_reasoning_steps ∧
      (validate cfg O attempt ev).confidence < acceptThreshold cfg := by
  unfold validate at *
  simp only at h ⊢
  split_ifs at h with h1 h2
  push_neg at h2
  simp only [Bool.not_eq_false] at h1
  exact ⟨h1, h2.2, h2.1⟩

theorem validate_accept_of_max (cfg : Config) (O : Oracles) (attempt : Nat)
    (ev : List EvidenceItem) (h : cfg.max_reasoning_steps ≤ attempt) :
    (validate cfg O attempt ev).decision = .accept := by
  unfold validate
  simp only
  split_ifs with h1 h2 <;> first
    | rfl
    | exact absurd (Or.inr h) h2

theorem validate_accept_low_confidence (cfg : Config) (O : Oracles) (attempt : Nat)
    (ev : List EvidenceItem)
    (hacc : (validate cfg O attempt ev).decision = .accept)
    (hsr : cfg.enable_self_reflection = true)
    (hlow : (validate cfg O attempt ev).confidence < acceptThreshold cfg) :
    cfg.max_reasoning_steps ≤ attempt := by
  unfold validate at *
  simp only at hacc hlow ⊢
  split_ifs at hacc with h1 h2 <;> first
    | (rw [h1] at hsr; cases hsr)
    | (rcases h2 with h2 | h2
       · exact absurd h2 (not_le_of_lt hlow)
       · exact h2)

theorem retryLoop_trace (cfg : Config) (O : Oracles) (nq : String) (a : Analysis) :
    ∀ fuel attempt, attempt ≤ cfg.max_reasoning_steps →
      cfg.max_reasoning_steps ≤ attempt + fuel →
      ∃ k, 1 ≤ k ∧
        (retryLoop cfg O nq a fuel attempt).attemptTrace = List.range' attempt k ∧
        attempt + k ≤ cfg.max_reasoning_steps + 1
  | 0, attempt, h1, _ => ⟨1, le_refl 1, by simp [retryLoop], by omega⟩
  | fuel + 1, attempt, h1, h2 => by
    cases hdec : (validate cfg O attempt (evidenceFor cfg O nq a attempt)).decision with
    | accept =>
      refine ⟨1, le_refl 1, ?_, by omega⟩
      simp [retryLoop, hdec]
    | retry =>
      obtain ⟨_, hlt, _⟩ := validate_retry_inv cfg O attempt _ hdec
      obtain ⟨k, hk1, hkeq, hkb⟩ := retryLoop_trace cfg O nq a fuel (attempt + 1)
        hlt (by omega)
      refine ⟨k + 1, by omega, ?_, by omega⟩
      rw [List.range'_succ]
      simp [retryLoop, hdec, hkeq]

theorem retryLoop_result_spec (cfg : Config) (O : Oracles) (nq : String) (a : Analysis) :
    ∀ fuel attempt,
      (retryLoop cfg O nq a fuel attempt).result =
        validate cfg O (retryLoop cfg O nq a fuel attempt).finalAttempt
          (evidenceFor cfg O nq a (retryLoop cfg O nq a fuel attempt).finalAttempt) ∧
      attempt ≤ (retryLoop cfg O nq a fuel attempt).finalAttempt
  | 0, attempt => by simp [retryLoop]
  | fuel + 1, attempt => by
    cases hdec : (validate cfg O attempt (evidenceFor cfg O nq a attempt)).decision with
    | accept => simp [retryLoop, hdec]
    | retry =>
      obtain ⟨hres, hle⟩ := retryLoop_result_spec cfg O nq a fuel (attempt + 1)
      constructor
      · simpa [retryLoop, hdec] using hres
      · have : (retryLoop cfg O nq a (fuel + 1) attempt).finalAttempt =
            (retryLoop cfg O nq a fuel (attempt + 1)).finalAttempt := by
          simp [retryLoop, hdec]
        omega

theorem retryLoop_final_le (cfg : Config) (O : Oracles) (nq : String) (a : Analysis) :
    ∀ fuel attempt, attempt ≤ cfg.max_reasoning_steps →
      (retryLoop cfg O nq a fuel attempt).finalAttempt ≤ cfg.max_reasoning_steps
  | 0, attempt, h1 => by simpa [retryLoop] using h1
  | fuel + 1, attempt, h1 => by
    cases hdec : (validate cfg O attempt (evidenceFor cfg O nq a attempt)).decision with
    | accept => simpa [retryLoop, hdec] using h1
    | retry =>
      obtain ⟨_, hlt, _⟩ := validate_retry_inv cfg O attempt _ hdec
      have := retryLoop_final_le cfg O nq a fuel (attempt + 1) hlt
      simpa [retryLoop, hdec] using this

theorem retryLoop_accept (cfg : Config) (O : Oracles) (nq : String) (a : Analysis) :
    ∀ fuel attempt, cfg.max_reasoning_steps ≤ attempt + fuel →
      (retryLoop cfg O nq a fuel attempt).result.decision = .accept
  | 0, attempt, h => by
    have : cfg.max_reasoning_steps ≤ attempt := by omega
    simpa [retryLoop] using validate_accept_of_max cfg O attempt _ this
  | fuel + 1, attempt, h => by
    cases hdec : (validate cfg O attempt (evidenceFor cfg O nq a attempt)).decision with
    | accept => simp [retryLoop, hdec]
    | retry =>
      have := retryLoop_accept cfg O nq a fuel (attempt + 1) (by omega)
      simpa [retryLoop, hdec] using this

/-! ### C1: bounded, monotone, terminating retry -/

/-- C1: in every pipeline run the attempt counter is non-decreasing over the
Validator evaluations, never exceeds `max_reasoning_steps`, and the run is
finite — the Validator runs at most `max_reasoning_steps` times and the run
ends in a terminal outcome. -/
theorem attempt_counter_bounded (cfg : Config) (O : Oracles) (q : String)
    (hmax : 1 ≤ cfg.max_reasoning_steps) :
    (runPipeline cfg O q).attemptTrace.Sorted (· ≤ ·) ∧
    (∀ n ∈ (runPipeline cfg O q).attemptTrace, n ≤ cfg.max_reasoning_steps) ∧
    (runPipeline cfg O q).validatorEvals ≤ cfg.max_reasoning_steps ∧
    (∃ resp, (runPipeline cfg O q).outcome = .success resp) := by
  unfold runPipeline
  cases hc : classificationOf O with
  | greeting => exact ⟨List.sorted_nil, by simp, by simp, ⟨_, rfl⟩⟩
  | chitchat => exact ⟨List.sorted_nil, by simp, by simp, ⟨_, rfl⟩⟩
  | out_of_domain => exact ⟨List.sorted_nil, by simp, by simp, ⟨_, rfl⟩⟩
  | document_query =>
    by_cases hr : O.store.reachable
    · simp only [hr, if_pos]
      obtain ⟨k, hk1, hkeq, hkb⟩ := retryLoop_trace cfg O
        (String.intercalate " " (normalize (q.splitOn " ")))
        (analysisOf (String.intercalate " " (normalize (q.splitOn " "))) O)
        cfg.max_reasoning_steps 1 hmax (by omega)
      refine ⟨?_, ?_, ?_, ⟨_, rfl⟩⟩
      · rw [hkeq]
        exact List.Pairwise.imp le_of_lt (List.pairwise_lt_range' 1 k)
      · intro n hn
        rw [hkeq] at hn
        have := List.mem_range'_1.mp hn
        omega
      · rw [hkeq, List.length_range']
        omega
    · simp only [hr, if_neg, Bool.false_eq_true, not_false_iff]
      exact ⟨List.sorted_nil, by simp, by simp, ⟨_, rfl⟩⟩

/-- Witness for C1 at a concrete configuration and oracle set. -/
theorem attempt_counter_bounded_witness :
    1 ≤ sampleCfg.max_reasoning_steps ∧
    (∀ n ∈ (runPipeline sampleCfg sampleOracles "điều kiện tốt nghiệp").attemptTrace,
      n ≤ sampleCfg.max_reasoning_steps) ∧
    (runPipeline sampleCfg sampleOracles "điều kiện tốt nghiệp").validatorEvals ≤
      sampleCfg.max_reasoning_steps :=
  ⟨by decide,
    (attempt_counter_bounded sampleCfg sampleOracles "điều kiện tốt nghiệp"
      (by decide)).2.1,
    (attempt_counter_bounded sampleCfg sampleOracles "điều kiện tốt nghiệp"
      (by decide)).2.2.1⟩

/-! ### C2: non-document classes bypass retrieval -/

/-- C2: a query classified as greeting, chitchat or out_of_domain
short-circuits — the run issues exactly zero vector store search calls, runs
the Validator zero times, and terminates with the templated direct
response. -/
theorem direct_classes_zero_retrieval (cfg : Config) (O : Oracles) (q : String)
    (h : classificationOf O = .greeting ∨ classificationOf O = .chitchat ∨
      classificationOf O = .out_of_domain) :
    (runPipeline cfg O q).retrievalCalls = 0 ∧
    (runPipeline cfg O q).validatorEvals = 0 ∧
    (runPipeline cfg O q).outcome = .success (directResponse (classificationOf O)) := by
  unfold runPipeline
  rcases h with h | h | h <;> rw [h] <;> exact ⟨rfl, rfl, rfl⟩

/-- Witness for C2 at a concrete greeting run. -/
theorem direct_classes_zero_retrieval_witness :
    classificationOf greetOracles = .greeting ∧
    (runPipeline sampleCfg greetOracles "Xin chào").retrievalCalls = 0 ∧
    (runPipeline sampleCfg greetOracles "Xin chào").outcome =
      .success (directResponse .greeting) := by
  have h := direct_classes_zero_retrieval sampleCfg greetOracles "Xin chào"
    (Or.inl rfl)
  exact ⟨rfl, h.1, h.2.2⟩

/-! ### C4: confidence bounds and the low-confidence warning -/

/-- C4: every ValidationResult's confidence lies in [0,1]; the formatted
FinalResponse of a document run carries the low-confidence warning exactly
when the accepted confidence is below the acceptance threshold, and (with
self-reflection enabled) such an acceptance only happens with the attempt
counter at `max_reasoning_steps` (exhausted attempts). -/
theorem confidence_bounds_and_warning (cfg : Config) (O : Oracles) (q : String)
    (hmax : 1 ≤ cfg.max_reasoning_steps)
    (hcl : classificationOf O = .document_query)
    (hre : O.store.reachable = true) :
    (∀ attempt ev, 0 ≤ (validate cfg O attempt ev).confidence ∧
      (validate cfg O attempt ev).confidence ≤ 1) ∧
    (runPipeline cfg O q).outcome = .success (docResponse cfg O q) ∧
    (docLoop cfg O q).result.decision = .accept ∧
    ((docResponse cfg O q).warning = true ↔
      (docLoop cfg O q).result.confidence < acceptThreshold cfg) ∧
    ((docResponse cfg O q).warning = true → cfg.enable_self_reflection = true →
      cfg.max_reasoning_steps ≤ (docLoop cfg O q).finalAttempt) := by
  refine ⟨fun attempt ev => validate_confidence_mem_unit cfg O attempt ev, ?_, ?_, ?_, ?_⟩
  · unfold runPipeline docResponse docLoop
    rw [hcl]
    simp only [hre, if_pos]
  · exact retryLoop_accept cfg O _ _ cfg.max_reasoning_steps 1 (by omega)
  · unfold docResponse format
    simp only [decide_eq_true_eq]
  · intro hw hsr
    have hlow : (docLoop cfg O q).result.confidence < acceptThreshold cfg := by
      unfold docResponse format at hw
      simpa only [decide_eq_true_eq] using hw
    have hacc : (docLoop cfg O q).result.decision = .accept :=
      retryLoop_accept cfg O _ _ cfg.max_reasoning_steps 1 (by omega)
    obtain ⟨hres, _⟩ := retryLoop_result_spec cfg O
      (String.intercalate " " (normalize (q.splitOn " ")))
      (analysisOf (String.intercalate " " (normalize (q.splitOn " "))) O)
      cfg.max_reasoning_steps 1
    unfold docLoop at hacc hlow ⊢
    rw [hres] at hacc hlow
    exact validate_accept_low_confidence cfg O _ _ hacc hsr hlow

/-- Witness for C4 at a concrete document run. -/
theorem confidence_bounds_and_warning_witness :
    (1 ≤ sampleCfg.max_reasoning_steps ∧
      classificationOf sampleOracles = .document_query ∧
      sampleOracles.store.reachable = true) ∧
    (0 ≤ (validate sampleCfg sampleOracles 1 []).confidence ∧
      (validate sampleCfg sampleOracles 1 []).confidence ≤ 1) ∧
    (runPipeline sampleCfg sampleOracles "điều kiện tốt nghiệp").outcome =
      .success (docResponse sampleCfg sampleOracles "điều kiện tốt nghiệp") :=
  ⟨⟨by decide, rfl, rfl⟩,
    (confidence_bounds_and_warning sampleCfg sampleOracles "điều kiện tốt nghiệp"
      (by decide) rfl rfl).1 1 [],
    (confidence_bounds_and_warning sampleCfg sampleOracles "điều kiện tốt nghiệp"
      (by decide) rfl rfl).2.1⟩

/-! ### C6: no silent termination -/

theorem append_ne_empty_of_right (a b : String) (h : 0 < b.length) : a ++ b ≠ "" := by
  intro hc
  have h2 := congrArg String.length hc
  rw [String.length_append] at h2
  have h3 : ("" : String).length = 0 := rfl
  omega

theorem format_answer_ne_empty (cfg : Config) (draft : String)
    (ev : List EvidenceItem) (vr : ValidationResult) :
    (format cfg draft ev vr).answer ≠ "" := by
  unfold format
  apply append_ne_empty_of_right
  rw [String.length_append]
  have : 0 < ("\n\nĐộ tin cậy: " : String).length := by decide
  omega

/-- C6: every terminal path of the pipeline yields either a FinalResponse
with a non-empty answer or an explicit failure descriptor — never a silent
empty or undefined answer. -/
theorem no_silent_termination (cfg : Config) (O : Oracles) (q : String) :
    (∃ e, (runPipeline cfg O q).outcome = .failed e) ∨
    (∃ resp, (runPipeline cfg O q).outcome = .success resp ∧ resp.answer ≠ "") := by
  right
  unfold runPipeline
  cases classificationOf O with
  | greeting => exact ⟨_, rfl, by decide⟩
  | chitchat => exact ⟨_, rfl, by decide⟩
  | out_of_domain => exact ⟨_, rfl, by decide⟩
  | document_query =>
    by_cases hr : O.store.reachable
    · simp only [hr, if_pos]
      exact ⟨_, rfl, format_answer_ne_empty _ _ _ _⟩
    · simp only [hr, if_neg, Bool.false_eq_true, not_false_iff]
      exact ⟨_, rfl, by decide⟩

/-! ### C8: handleSendMessage guards empty and in-flight input -/

/-- C8: when the trimmed message input is empty or a request is already in
flight, `handleSendMessage` leaves the state unchanged — in particular it
issues no HTTP request, appends nothing to the messages container, and
leaves `isLoading` and the input field as they were. -/
theorem handleSendMessage_noop (net : Network) (s : AppState)
    (h : jsTrim s.messageInputValue = "" ∨ s.isLoading = true) :
    handleSendMessage net s = s ∧
    (handleSendMessage net s).requestLog = s.requestLog ∧
    (handleSendMessage net s).messagesContainer = s.messagesContainer ∧
    (handleSendMessage net s).isLoading = s.isLoading ∧
    (handleSendMessage net s).messageInputValue = s.messageInputValue := by
  have he : handleSendMessage net s = s := by
    unfold handleSendMessage
    rcases h with h | h
    · simp [h]
    · simp [h]
  exact ⟨he, by rw [he], by rw [he], by rw [he], by rw [he]⟩

/-- Witness for C8 at a concrete whitespace-only input. -/
theorem handleSendMessage_noop_witness :
    jsTrim wStateBlankInput.messageInputValue = "" ∧
    handleSendMessage wNetAllOk wStateBlankInput = wStateBlankInput :=
  ⟨by decide,
    (handleSendMessage_noop wNetAllOk wStateBlankInput (Or.inl (by decide))).1⟩

/-! ### C9: message content is inserted as text, never parsed -/

/-- C9: `addMessageToUI` always builds the same fixed element structure and
appends it to the messages container; the content string becomes the data of
a single text node (the model of `textContent`), so for any two content
strings the built trees agree after erasing text-node data — they differ
only in that data, and content is never parsed as markup. -/
theorem addMessage_textContent_only (role c₁ c₂ : String) :
    eraseTextData (buildMessageElement role c₁) =
      eraseTextData (buildMessageElement role c₂) ∧
    collectTextData (buildMessageElement role c₁) = [c₁] ∧
    (∀ s : AppState, (addMessageToUI role c₁ s).messagesContainer =
      s.messagesContainer ++ [buildMessageElement role c₁]) := by
  refine ⟨?_, ?_, fun s => rfl⟩
  · simp [buildMessageElement, eraseTextData, eraseTextList]
  · simp [buildMessageElement, collectTextData, collectTextList]

/-! ### C10: current session id after deleting a conversation -/

/-- C10 counterexample: the delete request succeeds, the deleted session is
the current one, but the follow-up new-conversation request fails, so
`currentSessionId` still names the deleted conversation instead of the fresh
session id. -/
theorem deleteConversation_stale_counterexample :
    cexNetNewDown.deleteOk "s1" = true ∧
    wStateOnS1.currentSessionId = some "s1" ∧
    (deleteConversation cexNetNewDown "s1" wStateOnS1).currentSessionId = some "s1" ∧
    cexNetNewDown.newSessionId = "s2" :=
  ⟨rfl, rfl, rfl, rfl⟩

/-- C10 amended: after a successful `deleteConversation(sessionId)` whose
follow-up new-conversation request also succeeds, `currentSessionId` is
replaced by the fresh session id when the deleted session was current, and
is unchanged otherwise. -/
theorem deleteConversation_current (net : Network) (sid : String) (s : AppState)
    (hdel : net.deleteOk sid = true) (hnew : net.newOk = true) :
    (deleteConversation net sid s).currentSessionId =
      (if some sid = s.currentSessionId then some net.newSessionId
       else s.currentSessionId) := by
  unfold deleteConversation createNewConversation loadConversations showError showWelcomeMessage
  simp only [hdel, if_true]
  by_cases hcur : some sid = s.currentSessionId
  · by_cases hconv : net.conversationsOk <;> simp [hcur, hnew, hconv]
  · by_cases hconv : net.conversationsOk <;> simp [hcur, hconv]

/-- Witness for the amended C10 at a concrete state and backend. -/
theorem deleteConversation_current_witness :
    wNetAllOk.deleteOk "s1" = true ∧ wNetAllOk.newOk = true ∧
    (deleteConversation wNetAllOk "s1" wStateOnS1).currentSessionId = some "s2" := by
  refine ⟨rfl, rfl, ?_⟩
  rw [deleteConversation_current wNetAllOk "s1" wStateOnS1 rfl rfl]
  rfl

end HauiChatbot
